import Mathlib

/-!
Verification of the word-clock time-rendering core (src/src/main.cpp).

The embedding models the `displayTime` routine: the word catalog `WORDS`
with its parallel length table `WORD_LENGTHS`, the 64-entry LED buffer as a
`List Bool`, minute rounding, hour carry, the PAST/TO minute phrases, the
hour-word switch (which has no default case; modelled with `Option`, `none`
standing for the undefined branch), and the change-detection statics
`lastHour`/`lastMinute` as an explicit `ClockState`.
-/

namespace WordClock

/-- NUM_LEDS from config.h. -/
def NUM_LEDS : Nat := 64

/-- Word positions in the LED array, row for row from the WORDS table in
main.cpp (each row listing exactly the indices the loops read, i.e. the
first WORD_LENGTHS entries of the padded C array). Row numbering:
0 IT_IS, 1 HALF, 2 TEN_MIN, 3 QUARTER, 4 TWENTY, 5 FIVE_MIN, 6 MINUTES,
7 TO, 8 PAST, 9 ONE, 10 THREE, 11 TWO, 12 FOUR, 13 FIVE_HOUR, 14 SIX,
15 SEVEN, 16 EIGHT, 17 NINE, 18 TEN_HOUR, 19 ELEVEN, 20 TWELVE, 21 OCLOCK. -/
def WORDS : List (List Nat) :=
  [ [63, 62],
    [60, 59],
    [57, 56],
    [48, 49, 50, 51],
    [52, 53, 54, 55],
    [47, 46],
    [45, 44, 43, 42],
    [40],
    [32, 33],
    [35, 36],
    [37, 38, 39],
    [31, 30],
    [28, 27],
    [25, 24],
    [16, 17],
    [18, 19, 20],
    [21, 22, 23],
    [15, 14],
    [13],
    [10, 9, 8],
    [0, 1, 2],
    [4, 5, 6, 7] ]

/-- The WORD_LENGTHS array from main.cpp. -/
def WORD_LENGTHS : List Nat :=
  [2, 2, 2, 4, 4, 2, 4, 1, 2, 2, 3, 2, 2, 2, 2, 3, 3, 2, 1, 3, 3, 4]

/-- The row of the catalog for word index k. -/
def word (k : Nat) : List Nat := WORDS.getD k []

/-- The rows of the embedded catalog have exactly the lengths the C loops
read (so taking the whole row is faithful to `for i < WORD_LENGTHS[k]`). -/
theorem words_lengths_match :
    WORDS.map List.length = WORD_LENGTHS := by decide

/-- The LED buffer: one Bool per LED, true = lit (CRGB White). -/
def Buf : Type := List Bool

instance : DecidableEq Buf := by
  unfold Buf; infer_instance

/-- Light every LED of a word: the loop `leds[WORDS[k][i]] = CRGB::White`. -/
def lightWord (buf : Buf) (w : List Nat) : Buf :=
  w.foldl (fun b i => b.set i true) buf

/-- fill_solid(leds, NUM_LEDS, CRGB::Black). -/
def blackBuf : Buf := List.replicate NUM_LEDS false

/-- Minute rounding: `((minutes + 2) / 5) * 5` (C integer division, inputs
nonnegative, so Nat division agrees). -/
def round5 (minutes : Nat) : Nat := ((minutes + 2) / 5) * 5

/-- Rounding plus the rollover carry: if the rounded minute is 60 it becomes
0 and the hour becomes (hour + 1) mod 24. Returns the (hour, roundedMinutes)
pair the change-detection compares. -/
def carriedPair (hours minutes : Nat) : Nat × Nat :=
  let r := round5 minutes
  if r = 60 then ((hours + 1) % 24, 0) else (hours, r)

/-- The hour-word switch from main.cpp. The C switch has no default case,
leaving hourWordIndex uninitialized for hours outside 1..12; that undefined
branch is modelled as `none`. -/
def hourWordIndex (h : Nat) : Option Nat :=
  match h with
  | 1 => some 9
  | 2 => some 11
  | 3 => some 10
  | 4 => some 12
  | 5 => some 13
  | 6 => some 14
  | 7 => some 15
  | 8 => some 16
  | 9 => some 17
  | 10 => some 18
  | 11 => some 19
  | 12 => some 20
  | _ => none

/-- The 12-hour conversion in displayTime: hour mod 12, with 0 mapped
to 12. -/
def hour12base (h : Nat) : Nat :=
  if h % 12 = 0 then 12 else h % 12

/-- The next-hour substitution applied when roundedMinutes > 30:
`hours = (hours % 12) + 1; if (hours == 13) hours = 1;`. -/
def nextHour12 (h12 : Nat) : Nat :=
  if h12 % 12 + 1 = 13 then 1 else h12 % 12 + 1

/-- The displayed 12-hour value: the conversion followed by the next-hour
substitution when roundedMinutes > 30. -/
def displayedHour12 (hours r : Nat) : Nat :=
  if r > 30 then nextHour12 (hour12base hours) else hour12base hours

/-- The minute value after the TO-branch mutation
`roundedMinutes = 60 - roundedMinutes` (unchanged on the PAST branch and
when roundedMinutes is 0). -/
def minuteValue (r : Nat) : Nat :=
  if r > 30 then 60 - r else r

/-- The buffer after the clear and the unconditional IT_IS write at the
start of the repaint. -/
def bufItIs : Buf := lightWord blackBuf (word 0)

/-- The buffer after the PAST or TO write (reached only when
roundedMinutes is positive): PAST when roundedMinutes is at most 30, TO
otherwise. -/
def bufPastTo (r : Nat) : Buf :=
  if r ≤ 30 then lightWord bufItIs (word 8) else lightWord bufItIs (word 7)

/-- The buffer after the whole minute block of displayTime: nothing beyond
IT_IS when roundedMinutes is 0, otherwise PAST or TO followed by the
minute words selected by the final minute value (the TO branch has mutated
roundedMinutes to 60 - roundedMinutes). -/
def bufMinutes (r : Nat) : Buf :=
  if r > 0 then
    if minuteValue r = 5 then lightWord (bufPastTo r) (word 5)
    else if minuteValue r = 10 then lightWord (bufPastTo r) (word 2)
    else if minuteValue r = 15 then lightWord (bufPastTo r) (word 3)
    else if minuteValue r = 20 then lightWord (bufPastTo r) (word 4)
    else if minuteValue r = 25 then lightWord (lightWord (bufPastTo r) (word 4)) (word 5)
    else if minuteValue r = 30 then lightWord (bufPastTo r) (word 1)
    else bufPastTo r
  else bufItIs

/-- The body of displayTime after the change check, acting on the already
carried (hours, roundedMinutes) pair: clear, light IT_IS, convert to
12-hour, advance the hour when roundedMinutes > 30, light PAST or TO and
the minute words, light the hour word, and light OCLOCK when the final
minute value is 0 (the check the source performs on the mutated
roundedMinutes variable). The hour-word switch has no default case, so its
selection is undefined outside 1..12; that branch is `none`. -/
def paintBuf (hours r : Nat) : Option Buf :=
  match hourWordIndex (displayedHour12 hours r) with
  | none => none
  | some k =>
      some (if minuteValue r = 0 then
          lightWord (lightWord (bufMinutes r) (word k)) (word 21)
        else lightWord (bufMinutes r) (word k))

/-- The frame computed for a raw (hour, minute) input: rounding and carry
followed by the paint. -/
def computeFrame (hours minutes : Nat) : Option Buf :=
  paintBuf (carriedPair hours minutes).1 (carriedPair hours minutes).2

/-- The frame as a plain buffer (defaulting to black on the undefined
branch, which never fires for valid input). -/
def frameOf (hours minutes : Nat) : Buf :=
  (computeFrame hours minutes).getD blackBuf

/-- Whether LED i is lit in a buffer. -/
def lit (buf : Buf) (i : Nat) : Bool := buf.getD i false

/-- A frame includes word k when every LED of the word is lit. -/
def hasWord (buf : Buf) (k : Nat) : Bool := (word k).all (lit buf)

/-- Whether the hour word for the 12-hour value h12 is included. The
undefined switch branch counts as not lit. -/
def hourWordLit (buf : Buf) (h12 : Nat) : Bool :=
  match hourWordIndex h12 with
  | some k => hasWord buf k
  | none => false

/-- The catalog indices of the hour words ONE..TWELVE. -/
def hourWordIds : List Nat := [9, 10, 11, 12, 13, 14, 15, 16, 17, 18, 19, 20]

/-- The word indices fully lit in a buffer, in catalog order. -/
def litWords (buf : Buf) : List Nat :=
  (List.range WORDS.length).filter (fun k => hasWord buf k)

/-- The post-carry rounded minute for a raw input. -/
def rmin (hours minutes : Nat) : Nat := (carriedPair hours minutes).2

/-- The post-carry hour for a raw input. -/
def rhour (hours minutes : Nat) : Nat := (carriedPair hours minutes).1

/-- The change-detection state: the static lastHour/lastMinute ints (both
initialized to -1) and the global leds buffer. -/
structure ClockState where
  lastHour : Int
  lastMinute : Int
  leds : Buf

/-- The state at program start: both statics at -1, buffer dark. -/
def initState : ClockState := ⟨-1, -1, blackBuf⟩

/-- displayTime as a state transition. Returns the new state and whether
FastLED.show() was called (the flush); `none` models the undefined
hour-word branch. When the carried pair equals the cached pair the call
does nothing; otherwise it updates the cache, repaints and flushes. -/
def displayTime (s : ClockState) (localHour localMinute : Nat) :
    Option (ClockState × Bool) :=
  if ((carriedPair localHour localMinute).1 : Int) = s.lastHour ∧
      ((carriedPair localHour localMinute).2 : Int) = s.lastMinute then
    some (s, false)
  else
    (paintBuf (carriedPair localHour localMinute).1
        (carriedPair localHour localMinute).2).map fun buf =>
      ({ lastHour := (carriedPair localHour localMinute).1,
         lastMinute := (carriedPair localHour localMinute).2,
         leds := buf }, true)

/-- The minute mapping the spec states for the minute words: 5 lights
FIVE_MIN, 10 lights TEN_MIN, 15 QUARTER, 20 TWENTY, 25 both TWENTY and
FIVE_MIN, 30 HALF. Used to phrase the claims, checked against the frames
the paint produces. -/
def minuteWordsLit (buf : Buf) (m : Nat) : Bool :=
  match m with
  | 5 => hasWord buf 5
  | 10 => hasWord buf 2
  | 15 => hasWord buf 3
  | 20 => hasWord buf 4
  | 25 => hasWord buf 4 && hasWord buf 5
  | 30 => hasWord buf 1
  | _ => false
/-- The buffer the paint produces, as a plain value (black on the undefined
branch, which never fires for valid input). -/
def paintedBuf (hours r : Nat) : Buf := (paintBuf hours r).getD blackBuf

/-- Checker for the always/iff word properties of one painted frame: IT_IS
lit, OCLOCK lit exactly when roundedMinutes is 0, exactly one of PAST and
TO lit exactly when roundedMinutes is not 0, exactly one hour word lit. -/
def checkBasic (buf : Buf) (r : Nat) : Bool :=
  hasWord buf 0 &&
    (hasWord buf 21 == decide (r = 0)) &&
    ((hasWord buf 8 != hasWord buf 7) == decide (r ≠ 0)) &&
    (hourWordIds.countP (fun k => hasWord buf k) == 1)

/-- Checker for the minute phrase of one painted frame: for a nonzero
roundedMinutes at most 30, PAST and the minute words for it; above 30, TO
and the minute words for 60 - roundedMinutes, itself in 5..25. -/
def checkMinutePhrase (buf : Buf) (r : Nat) : Bool :=
  if r = 0 then true
  else if r ≤ 30 then hasWord buf 8 && minuteWordsLit buf r
  else hasWord buf 7 && ([5, 10, 15, 20, 25].contains (60 - r)) &&
    minuteWordsLit buf (60 - r)

/-- Checker for the next-hour substitution: above 30 the lit hour word is
the one for nextHour12 of the 12-hour conversion of the carried hour. -/
def checkNextHour (buf : Buf) (hh r : Nat) : Bool :=
  if 30 < r then hourWordLit buf (nextHour12 (hour12base hh))
  else true

/-- Checker for the exact hour: at roundedMinutes 0 the lit hour word is
the plain 12-hour conversion of the carried hour, and OCLOCK is lit. -/
def checkExactHour (buf : Buf) (hh r : Nat) : Bool :=
  if r = 0 then hourWordLit buf (hour12base hh) && hasWord buf 21
  else true

/-- Checker that no LED of the MINUTES word is lit in one painted frame. -/
def checkMinutesDark (buf : Buf) : Bool :=
  (word 6).all fun i => !(lit buf i)

/-- All the per-frame checks at once, painting the frame a single time. -/
def checkAll (hh r : Nat) : Bool :=
  let buf := paintedBuf hh r
  checkBasic buf r &&
    (checkMinutePhrase buf r &&
      (checkNextHour buf hh r &&
        (checkExactHour buf hh r &&
          checkMinutesDark buf)))

/-- The carried pair of a valid input stays in range: hour below 24,
roundedMinutes a multiple of 5 below 56. -/
theorem carried_range : ∀ h < 24, ∀ m < 60,
    rhour h m < 24 ∧ rmin h m < 56 ∧ rmin h m % 5 = 0 := by decide

set_option maxHeartbeats 8000000 in
set_option maxRecDepth 100000 in
/-- Every reachable painted frame passes all the per-frame checks. -/
theorem checkAll_valid : ∀ hh < 24, ∀ r < 56, r % 5 = 0 →
    checkAll hh r = true := by decide

/-- Splitting checkAll into its components. -/
theorem checkAll_split {hh r : Nat} (hc : checkAll hh r = true) :
    checkBasic (paintedBuf hh r) r = true ∧
    checkMinutePhrase (paintedBuf hh r) r = true ∧
    checkNextHour (paintedBuf hh r) hh r = true ∧
    checkExactHour (paintedBuf hh r) hh r = true ∧
    checkMinutesDark (paintedBuf hh r) = true := by
  unfold checkAll at hc
  simp only [Bool.and_eq_true] at hc
  exact ⟨hc.1, hc.2.1, hc.2.2.1, hc.2.2.2.1, hc.2.2.2.2⟩

theorem hour12base_mem (h : Nat) : 1 ≤ hour12base h ∧ hour12base h ≤ 12 := by
  unfold hour12base; split <;> omega

theorem nextHour12_mem (h12 : Nat) : 1 ≤ nextHour12 h12 ∧ nextHour12 h12 ≤ 12 := by
  unfold nextHour12; split <;> omega

theorem displayedHour12_mem (hours r : Nat) :
    1 ≤ displayedHour12 hours r ∧ displayedHour12 hours r ≤ 12 := by
  unfold displayedHour12; split
  · exact nextHour12_mem _
  · exact hour12base_mem _

theorem hourWordIndex_isSome (h12 : Nat) (h1 : 1 ≤ h12) (h2 : h12 ≤ 12) :
    (hourWordIndex h12).isSome = true := by
  interval_cases h12 <;> rfl

theorem paintBuf_isSome (hours r : Nat) : (paintBuf hours r).isSome = true := by
  have hm := displayedHour12_mem hours r
  obtain ⟨k, hk⟩ := Option.isSome_iff_exists.mp (hourWordIndex_isSome _ hm.1 hm.2)
  unfold paintBuf
  rw [hk]
  rfl

theorem computeFrame_eq (hours minutes : Nat) :
    computeFrame hours minutes = some (frameOf hours minutes) := by
  obtain ⟨b, hb⟩ := Option.isSome_iff_exists.mp
    (paintBuf_isSome (carriedPair hours minutes).1 (carriedPair hours minutes).2)
  unfold frameOf computeFrame
  rw [hb]
  rfl

theorem displayTime_skip (s : ClockState) (h m : Nat)
    (hsame : ((carriedPair h m).1 : Int) = s.lastHour ∧
      ((carriedPair h m).2 : Int) = s.lastMinute) :
    displayTime s h m = some (s, false) := by
  unfold displayTime
  rw [if_pos hsame]

theorem displayTime_repaint (s : ClockState) (h m : Nat)
    (hdiff : ¬(((carriedPair h m).1 : Int) = s.lastHour ∧
      ((carriedPair h m).2 : Int) = s.lastMinute)) :
    displayTime s h m =
      some ({ lastHour := (carriedPair h m).1, lastMinute := (carriedPair h m).2,
              leds := frameOf h m }, true) := by
  unfold displayTime
  rw [if_neg hdiff]
  have hcf := computeFrame_eq h m
  unfold computeFrame at hcf
  rw [hcf]
  rfl

theorem checkBasic_spec {buf : Buf} {r : Nat} (hc : checkBasic buf r = true) :
    hasWord buf 0 = true ∧
    (hasWord buf 21 = true ↔ r = 0) ∧
    ((hasWord buf 8 ≠ hasWord buf 7) ↔ r ≠ 0) ∧
    hourWordIds.countP (fun k => hasWord buf k) = 1 := by
  unfold checkBasic at hc
  simp only [Bool.and_eq_true, beq_iff_eq] at hc
  obtain ⟨⟨⟨h1, h2⟩, h3⟩, h4⟩ := hc
  refine ⟨h1, by simp [h2], ?_, h4⟩
  have h3t : (hasWord buf 8 != hasWord buf 7) = true ↔ r ≠ 0 := by
    simp [h3]
  simpa [bne_iff_ne] using h3t

theorem checkMinutePhrase_spec {buf : Buf} {r : Nat}
    (hc : checkMinutePhrase buf r = true) (hne : r ≠ 0) :
    (r ≤ 30 →
      hasWord buf 8 = true ∧
      minuteWordsLit buf r = true) ∧
    (30 < r →
      hasWord buf 7 = true ∧
      (60 - r) ∈ ([5, 10, 15, 20, 25] : List Nat) ∧
      minuteWordsLit buf (60 - r) = true) := by
  unfold checkMinutePhrase at hc
  rw [if_neg hne] at hc
  by_cases hle : r ≤ 30
  · rw [if_pos hle] at hc
    simp only [Bool.and_eq_true] at hc
    exact ⟨fun _ => hc, fun hgt => absurd hgt (by omega)⟩
  · rw [if_neg hle] at hc
    simp only [Bool.and_eq_true] at hc
    obtain ⟨⟨h7, hmem⟩, hmw⟩ := hc
    refine ⟨fun hle2 => absurd hle2 hle, fun _ => ⟨h7, ?_, hmw⟩⟩
    simpa using hmem

theorem checkNextHour_spec {buf : Buf} {hh r : Nat}
    (hc : checkNextHour buf hh r = true) (hgt : 30 < r) :
    hourWordLit buf (nextHour12 (hour12base hh)) = true := by
  unfold checkNextHour at hc
  rwa [if_pos hgt] at hc

theorem checkExactHour_spec {buf : Buf} {hh r : Nat}
    (hc : checkExactHour buf hh r = true) (h0 : r = 0) :
    hourWordLit buf (hour12base hh) = true ∧
    hasWord buf 21 = true := by
  unfold checkExactHour at hc
  rw [if_pos h0] at hc
  simpa [Bool.and_eq_true] using hc

theorem checkMinutesDark_spec {buf : Buf} (hc : checkMinutesDark buf = true) :
    ∀ i ∈ word 6, lit buf i = false := by
  intro i hi
  unfold checkMinutesDark at hc
  simp only [List.all_eq_true] at hc
  have hbody := hc i hi
  simpa using hbody

/-- Every catalog index is a valid LED position. -/
theorem word_indices_bound : ∀ k, k < WORDS.length → ∀ i ∈ word k,
    i < NUM_LEDS := by decide

set_option synthInstance.maxSize 2000 in
/-- Distinct catalog words share no LED index. -/
theorem words_disjoint : ∀ k, k < WORDS.length → ∀ k2, k2 < WORDS.length →
    k ≠ k2 → ∀ i ∈ word k, i ∉ word k2 := by decide

/-- The hour-word switch only ever selects a catalog index. -/
theorem hourWordIndex_lt (h12 k : Nat) (hk : hourWordIndex h12 = some k) :
    k < WORDS.length := by
  unfold hourWordIndex at hk
  split at hk <;>
    first
      | (injection hk with h2; subst h2; decide)
      | exact Option.noConfusion hk

theorem lightWord_length (w : List Nat) (b : Buf) :
    (lightWord b w).length = b.length := by
  induction w generalizing b with
  | nil => rfl
  | cons x t ih =>
      show (lightWord (b.set x true) t).length = b.length
      rw [ih, List.length_set]

theorem lit_set_true_mono {b : Buf} {j i : Nat} (h : lit b i = true) :
    lit (b.set j true) i = true := by
  unfold lit at h ⊢
  rw [List.getD_eq_getElem?_getD] at h ⊢
  rw [List.getElem?_set]
  split
  · next hji =>
      split
      · next => rfl
      · next hnlt =>
          subst hji
          rw [List.getElem?_eq_none (Nat.le_of_not_lt hnlt)] at h
          exact absurd h (by simp)
  · next => exact h

theorem lit_set_self {b : Buf} {j : Nat} (hj : j < b.length) :
    lit (b.set j true) j = true := by
  unfold lit
  rw [List.getD_eq_getElem?_getD, List.getElem?_set]
  simp [hj]

theorem lit_set_true_cases {b : Buf} {j i : Nat}
    (h : lit (b.set j true) i = true) : lit b i = true ∨ i = j := by
  by_cases hij : i = j
  · exact Or.inr hij
  · left
    unfold lit at h ⊢
    rw [List.getD_eq_getElem?_getD] at h ⊢
    rwa [List.getElem?_set_ne (fun he => hij he.symm)] at h

theorem lit_lightWord_mono {b : Buf} {w : List Nat} {i : Nat}
    (h : lit b i = true) : lit (lightWord b w) i = true := by
  induction w generalizing b with
  | nil => exact h
  | cons x t ih =>
      show lit (lightWord (b.set x true) t) i = true
      exact ih (lit_set_true_mono h)

theorem lit_lightWord_of_mem {b : Buf} {w : List Nat} {i : Nat}
    (hw : ∀ j ∈ w, j < b.length) (hi : i ∈ w) :
    lit (lightWord b w) i = true := by
  induction w generalizing b with
  | nil => cases hi
  | cons x t ih =>
      show lit (lightWord (b.set x true) t) i = true
      rcases List.mem_cons.mp hi with hx | ht
      · subst hx
        exact lit_lightWord_mono (lit_set_self (hw i (List.mem_cons_self ..)))
      · apply ih
        · intro j hj
          rw [List.length_set]
          exact hw j (List.mem_cons_of_mem _ hj)
        · exact ht

theorem lit_lightWord_cases {b : Buf} {w : List Nat} {i : Nat}
    (h : lit (lightWord b w) i = true) : lit b i = true ∨ i ∈ w := by
  induction w generalizing b with
  | nil => exact Or.inl h
  | cons x t ih =>
      have h2 : lit (lightWord (b.set x true) t) i = true := h
      rcases ih h2 with hb | ht
      · rcases lit_set_true_cases hb with hb2 | hix
        · exact Or.inl hb2
        · exact Or.inr (by simp [hix])
      · exact Or.inr (List.mem_cons_of_mem _ ht)

theorem lit_blackBuf (i : Nat) : lit blackBuf i = false := by
  unfold lit blackBuf
  rw [List.getD_eq_getElem?_getD, List.getElem?_replicate]
  split <;> rfl

/-- A buffer built by lighting a chain of catalog words over the cleared
buffer; every repaint produces such a buffer. -/
def Chained (buf : Buf) : Prop :=
  ∃ ws : List Nat, (∀ k ∈ ws, k < WORDS.length) ∧
    buf = ws.foldl (fun b k => lightWord b (word k)) blackBuf

theorem chained_lightWord {buf : Buf} (h : Chained buf) {k : Nat}
    (hk : k < WORDS.length) : Chained (lightWord buf (word k)) := by
  obtain ⟨ws, hb, he⟩ := h
  refine ⟨ws ++ [k], ?_, ?_⟩
  · intro kk hkk
    rcases List.mem_append.mp hkk with h1 | h2
    · exact hb kk h1
    · rw [List.mem_singleton] at h2
      subst h2
      exact hk
  · rw [he, List.foldl_append]
    rfl

theorem chained_ite {c : Prop} [Decidable c] {a b : Buf}
    (ha : Chained a) (hb : Chained b) : Chained (if c then a else b) := by
  by_cases hc : c
  · rwa [if_pos hc]
  · rwa [if_neg hc]

theorem chained_bufItIs : Chained bufItIs :=
  ⟨[0], by decide, rfl⟩

theorem chained_bufPastTo (r : Nat) : Chained (bufPastTo r) := by
  unfold bufPastTo
  exact chained_ite (chained_lightWord chained_bufItIs (by decide))
    (chained_lightWord chained_bufItIs (by decide))

theorem chained_bufMinutes (r : Nat) : Chained (bufMinutes r) := by
  unfold bufMinutes
  exact chained_ite
    (chained_ite (chained_lightWord (chained_bufPastTo r) (by decide))
      (chained_ite (chained_lightWord (chained_bufPastTo r) (by decide))
        (chained_ite (chained_lightWord (chained_bufPastTo r) (by decide))
          (chained_ite (chained_lightWord (chained_bufPastTo r) (by decide))
            (chained_ite (chained_lightWord
                (chained_lightWord (chained_bufPastTo r) (by decide)) (by decide))
              (chained_ite (chained_lightWord (chained_bufPastTo r) (by decide))
                (chained_bufPastTo r)))))))
    chained_bufItIs

theorem paintedBuf_chained (hh r : Nat) : Chained (paintedBuf hh r) := by
  have hmem := displayedHour12_mem hh r
  obtain ⟨k, hk⟩ :=
    Option.isSome_iff_exists.mp (hourWordIndex_isSome _ hmem.1 hmem.2)
  have hkb : k < WORDS.length := hourWordIndex_lt _ _ hk
  unfold paintedBuf paintBuf
  rw [hk]
  simp only [Option.getD_some]
  exact chained_ite
    (chained_lightWord (chained_lightWord (chained_bufMinutes r) hkb) (by decide))
    (chained_lightWord (chained_bufMinutes r) hkb)

theorem lit_foldWords_cases (ws : List Nat) {b : Buf} {i : Nat}
    (h : lit (ws.foldl (fun b k => lightWord b (word k)) b) i = true) :
    lit b i = true ∨ ∃ k ∈ ws, i ∈ word k := by
  induction ws generalizing b with
  | nil => exact Or.inl h
  | cons k t ih =>
      rcases ih h with hlw | ⟨k2, hk2, hik2⟩
      · rcases lit_lightWord_cases hlw with hbb | hiw
        · exact Or.inl hbb
        · exact Or.inr ⟨k, List.mem_cons_self .., hiw⟩
      · exact Or.inr ⟨k2, List.mem_cons_of_mem _ hk2, hik2⟩

theorem lit_foldWords_mono (ws : List Nat) {b : Buf} {i : Nat}
    (h : lit b i = true) :
    lit (ws.foldl (fun b k => lightWord b (word k)) b) i = true := by
  induction ws generalizing b with
  | nil => exact h
  | cons k t ih => exact ih (lit_lightWord_mono h)

theorem lit_foldWords_of_mem (ws : List Nat) {b : Buf}
    (hblen : b.length = NUM_LEDS) (hws : ∀ k ∈ ws, k < WORDS.length)
    {k i : Nat} (hk : k ∈ ws) (hi : i ∈ word k) :
    lit (ws.foldl (fun b k => lightWord b (word k)) b) i = true := by
  induction ws generalizing b with
  | nil => cases hk
  | cons k1 t ih =>
      show lit (t.foldl _ (lightWord b (word k1))) i = true
      have hlen2 : (lightWord b (word k1)).length = NUM_LEDS := by
        rw [lightWord_length, hblen]
      rcases List.mem_cons.mp hk with hkk | hkt
      · subst hkk
        have hlit : lit (lightWord b (word k)) i = true := by
          apply lit_lightWord_of_mem
          · intro j hj
            rw [hblen]
            exact word_indices_bound k (hws k (List.mem_cons_self ..)) j hj
          · exact hi
        exact lit_foldWords_mono t hlit
      · exact ih hlen2 (fun k2 hk2 => hws k2 (List.mem_cons_of_mem _ hk2)) hkt

/-- Every lit LED of every painted frame is a valid position and lies in
exactly one catalog word, which is itself fully lit. -/
theorem frame_coverage (hh r : Nat) :
    ∀ i, lit (paintedBuf hh r) i = true →
      i < NUM_LEDS ∧ ∃ k, k < WORDS.length ∧ i ∈ word k ∧
        hasWord (paintedBuf hh r) k = true ∧
        ∀ k2, k2 < WORDS.length → i ∈ word k2 → k2 = k := by
  intro i hlit
  obtain ⟨ws, hwsb, hwse⟩ := paintedBuf_chained hh r
  rw [hwse] at hlit
  rcases lit_foldWords_cases ws hlit with hb | ⟨k, hkws, hik⟩
  · rw [lit_blackBuf] at hb
    exact absurd hb (by simp)
  · have hklt := hwsb k hkws
    have hibound : i < NUM_LEDS := word_indices_bound k hklt i hik
    refine ⟨hibound, k, hklt, hik, ?_, ?_⟩
    · rw [hwse]
      unfold hasWord
      rw [List.all_eq_true]
      intro j hj
      exact lit_foldWords_of_mem ws (by rfl) hwsb hkws hj
    · intro k2 hk2 hik2
      by_contra hne
      exact words_disjoint k2 hk2 k hklt hne i hik2 hik


/-- C1: for every hour in 0..23 and minute in 0..59 the rendered frame
always includes IT_IS; includes OCLOCK exactly when the rounded minute
(after the rollover carry) is 0; includes exactly one of PAST and TO
exactly when it is not 0; and always includes exactly one hour word among
ONE..TWELVE. -/
theorem frame_words_basic : ∀ h < 24, ∀ m < 60,
    hasWord (frameOf h m) 0 = true ∧
    (hasWord (frameOf h m) 21 = true ↔ rmin h m = 0) ∧
    ((hasWord (frameOf h m) 8 ≠ hasWord (frameOf h m) 7) ↔ rmin h m ≠ 0) ∧
    hourWordIds.countP (fun k => hasWord (frameOf h m) k) = 1 := by
  intro h hh m hm
  obtain ⟨h24, h56, h5⟩ := carried_range h hh m hm
  exact checkBasic_spec
    (checkAll_split (checkAll_valid (rhour h m) h24 (rmin h m) h56 h5)).1

/-- Witness for C1 at hour 9, minute 12. -/
theorem frame_words_basic_witness :
    hasWord (frameOf 9 12) 0 = true ∧
    (hasWord (frameOf 9 12) 21 = true ↔ rmin 9 12 = 0) ∧
    ((hasWord (frameOf 9 12) 8 ≠ hasWord (frameOf 9 12) 7) ↔ rmin 9 12 ≠ 0) ∧
    hourWordIds.countP (fun k => hasWord (frameOf 9 12) k) = 1 :=
  frame_words_basic 9 (by decide) 12 (by decide)

/-- C2: for a nonzero (post-carry) rounded minute r, the frame includes
PAST and the minute words for r when r is at most 30, and TO and the
minute words for 60 - r (one of 5,10,15,20,25) when r is above 30; the
minute-word mapping is the one of minuteWordsLit. In particular (2, 32)
lights exactly IT_IS, HALF, PAST, TWO and (9, 12) exactly IT_IS, TEN_MIN,
PAST, NINE. -/
theorem minute_words_correct :
    (∀ h < 24, ∀ m < 60, rmin h m ≠ 0 →
      (rmin h m ≤ 30 →
        hasWord (frameOf h m) 8 = true ∧
        minuteWordsLit (frameOf h m) (rmin h m) = true) ∧
      (30 < rmin h m →
        hasWord (frameOf h m) 7 = true ∧
        (60 - rmin h m) ∈ ([5, 10, 15, 20, 25] : List Nat) ∧
        minuteWordsLit (frameOf h m) (60 - rmin h m) = true)) ∧
    litWords (frameOf 2 32) = [0, 1, 8, 11] ∧
    litWords (frameOf 9 12) = [0, 2, 8, 17] := by
  refine ⟨?_, by decide, by decide⟩
  intro h hh m hm hne
  obtain ⟨h24, h56, h5⟩ := carried_range h hh m hm
  exact checkMinutePhrase_spec
    (checkAll_split (checkAll_valid (rhour h m) h24 (rmin h m) h56 h5)).2.1 hne

/-- Witness for C2 at hour 2, minute 32. -/
theorem minute_words_correct_witness :
    (rmin 2 32 ≤ 30 →
      hasWord (frameOf 2 32) 8 = true ∧
      minuteWordsLit (frameOf 2 32) (rmin 2 32) = true) ∧
    (30 < rmin 2 32 →
      hasWord (frameOf 2 32) 7 = true ∧
      (60 - rmin 2 32) ∈ ([5, 10, 15, 20, 25] : List Nat) ∧
      minuteWordsLit (frameOf 2 32) (60 - rmin 2 32) = true) :=
  minute_words_correct.1 2 (by decide) 32 (by decide) (by decide)

/-- C3: when the (post-carry) rounded minute is above 30, the lit hour
word is the next hour, obtained by applying the substitution
(hour12 mod 12) + 1 with 13 wrapped to 1 after the 12-hour conversion. In
particular (2, 33) lights exactly IT_IS, TWENTY, FIVE_MIN, TO, THREE and
(14, 47) exactly IT_IS, QUARTER, TO, THREE. -/
theorem next_hour_on_to :
    (∀ h < 24, ∀ m < 60, 30 < rmin h m →
      hourWordLit (frameOf h m) (nextHour12 (hour12base (rhour h m))) = true) ∧
    litWords (frameOf 2 33) = [0, 4, 5, 7, 10] ∧
    litWords (frameOf 14 47) = [0, 3, 7, 10] := by
  refine ⟨?_, by decide, by decide⟩
  intro h hh m hm hgt
  obtain ⟨h24, h56, h5⟩ := carried_range h hh m hm
  exact checkNextHour_spec
    (checkAll_split (checkAll_valid (rhour h m) h24 (rmin h m) h56 h5)).2.2.1 hgt

/-- Witness for C3 at hour 2, minute 33. -/
theorem next_hour_on_to_witness :
    hourWordLit (frameOf 2 33) (nextHour12 (hour12base (rhour 2 33))) = true :=
  next_hour_on_to.1 2 (by decide) 33 (by decide) (by decide)

/-- C4: when the raw rounded minute reaches 60 it becomes 0 and the hour
becomes (hour + 1) mod 24; whenever the post-carry rounded minute is 0 the
lit hour word is the 12-hour conversion (hour mod 12, 0 mapped to 12) of
the post-carry hour, together with OCLOCK. In particular (23, 58), (12, 0)
and (0, 0) light exactly IT_IS, TWELVE, OCLOCK — no PAST, no TO. -/
theorem hour_carry_and_twelve :
    (∀ h < 24, ∀ m < 60, round5 m = 60 →
      rmin h m = 0 ∧ rhour h m = (h + 1) % 24) ∧
    (∀ h < 24, ∀ m < 60, rmin h m = 0 →
      hourWordLit (frameOf h m) (hour12base (rhour h m)) = true ∧
      hasWord (frameOf h m) 21 = true) ∧
    litWords (frameOf 23 58) = [0, 20, 21] ∧
    litWords (frameOf 12 0) = [0, 20, 21] ∧
    litWords (frameOf 0 0) = [0, 20, 21] := by
  refine ⟨by decide, ?_, by decide, by decide, by decide⟩
  intro h hh m hm h0
  obtain ⟨h24, h56, h5⟩ := carried_range h hh m hm
  exact checkExactHour_spec
    (checkAll_split (checkAll_valid (rhour h m) h24 (rmin h m) h56 h5)).2.2.2.1 h0

/-- Witness for C4 at hour 23, minute 58. -/
theorem hour_carry_and_twelve_witness :
    rmin 23 58 = 0 ∧ rhour 23 58 = (23 + 1) % 24 :=
  hour_carry_and_twelve.1 23 (by decide) 58 (by decide) (by decide)

/-- C5: for every minute in 0..59 the raw rounded minute equals
floor((minute + 2) / 5) * 5 and is a multiple of 5 at most 60; minute 2
rounds down to 0 and minute 3 rounds up to 5. -/
theorem round5_spec :
    (∀ m < 60, round5 m % 5 = 0 ∧ round5 m ≤ 60 ∧
      round5 m = ((m + 2) / 5) * 5) ∧
    round5 2 = 0 ∧ round5 3 = 5 := by decide

/-- Witness for C5 at minute 58. -/
theorem round5_spec_witness :
    round5 58 % 5 = 0 ∧ round5 58 ≤ 60 ∧ round5 58 = ((58 + 2) / 5) * 5 :=
  round5_spec.1 58 (by decide)

/-- C6: a render call whose post-carry pair equals the cached pair leaves
the state untouched and requests no flush (the buffer is not rewritten); a
call with a differing pair repaints the buffer to the computed frame,
updates the cached pair and flushes; and the frame value for the input is
well defined (computed from the input alone) either way, so the caller
still has it — in the skip case the untouched buffer, painted by the
previous render of the same pair, is that very frame. -/
theorem change_detection_spec (s : ClockState) (h m : Nat)
    (hh : h < 24) (hm : m < 60) :
    ((((carriedPair h m).1 : Int) = s.lastHour ∧
        ((carriedPair h m).2 : Int) = s.lastMinute) →
      displayTime s h m = some (s, false)) ∧
    (¬(((carriedPair h m).1 : Int) = s.lastHour ∧
        ((carriedPair h m).2 : Int) = s.lastMinute) →
      displayTime s h m =
        some ({ lastHour := (carriedPair h m).1,
                lastMinute := (carriedPair h m).2,
                leds := frameOf h m }, true)) ∧
    computeFrame h m = some (frameOf h m) :=
  ⟨fun hc => displayTime_skip s h m hc,
   fun hc => displayTime_repaint s h m hc,
   computeFrame_eq h m⟩

/-- Witness for C6: from the initial state, rendering 2:32 repaints. -/
theorem change_detection_spec_witness :
    displayTime initState 2 32 =
      some ({ lastHour := (carriedPair 2 32).1,
              lastMinute := (carriedPair 2 32).2,
              leds := frameOf 2 32 }, true) :=
  (change_detection_spec initState 2 32 (by decide) (by decide)).2.1 (by decide)

/-- C7 counterexample: at the out-of-range hour 24 no domain-validation
failure is signalled — the renderer produces a frame (the undefined branch
does not fire) and silently wraps, rendering exactly as hour 0 does. -/
theorem domain_validation_missing :
    (computeFrame 24 0).isSome = true ∧ computeFrame 24 0 = computeFrame 0 0 := by
  decide

/-- C7 amended: the code performs no domain validation. For every
nonnegative input, in or out of range, a frame is produced and no failure
is signalled; out-of-range hours silently wrap through the modular
arithmetic (hour 24 renders as hour 0). The hour-word switch covers only
1..12 — outside that its selection is undefined (no default case; `none`
in the model) rather than an explicit failure — but the computed 12-hour
value always lands in 1..12, so that branch is unreachable. -/
theorem no_failure_signal_any_input :
    (∀ hours minutes : Nat, (computeFrame hours minutes).isSome = true) ∧
    computeFrame 24 0 = computeFrame 0 0 ∧
    hourWordIndex 0 = none ∧ hourWordIndex 13 = none := by
  refine ⟨fun hours minutes => paintBuf_isSome _ _, by decide, rfl, rfl⟩

/-- C8: every LED index of the catalog is below NUM_LEDS, the words are
pairwise disjoint, and for every valid input every lit LED of the rendered
frame is in bounds and belongs to exactly one word of the catalog, a word
that is itself fully lit. -/
theorem catalog_bounds_disjoint :
    (∀ w ∈ WORDS, ∀ i ∈ w, i < NUM_LEDS) ∧
    List.Pairwise (fun u v => ∀ i ∈ u, i ∉ v) WORDS ∧
    (∀ h < 24, ∀ m < 60, ∀ i, lit (frameOf h m) i = true →
      i < NUM_LEDS ∧ ∃ k, k < WORDS.length ∧ i ∈ word k ∧
        hasWord (frameOf h m) k = true ∧
        ∀ k2, k2 < WORDS.length → i ∈ word k2 → k2 = k) := by
  refine ⟨by decide, by decide, ?_⟩
  intro h hh m hm i hlit
  exact frame_coverage (rhour h m) (rmin h m) i hlit

/-- Witness for C8 at hour 9, minute 12, LED 63 (part of IT_IS). -/
theorem catalog_bounds_disjoint_witness :
    63 < NUM_LEDS ∧ ∃ k, k < WORDS.length ∧ 63 ∈ word k ∧
      hasWord (frameOf 9 12) k = true ∧
      ∀ k2, k2 < WORDS.length → 63 ∈ word k2 → k2 = k :=
  catalog_bounds_disjoint.2.2 9 (by decide) 12 (by decide) 63 (by decide)

/-- C9: with the same valid input, the state reached by a render call is a
fixed point — an immediately repeated call returns the very same state
(hence the identical set of lit LEDs) and requests no flush, regardless of
the cached last-rendered pair the first call started from. -/
theorem compute_idempotent (s : ClockState) (h m : Nat)
    (hh : h < 24) (hm : m < 60) :
    ∀ s1 f1, displayTime s h m = some (s1, f1) →
      displayTime s1 h m = some (s1, false) := by
  intro s1 f1 hrun
  by_cases hc : ((carriedPair h m).1 : Int) = s.lastHour ∧
      ((carriedPair h m).2 : Int) = s.lastMinute
  · rw [displayTime_skip s h m hc] at hrun
    simp only [Option.some.injEq, Prod.mk.injEq] at hrun
    obtain ⟨hs1, hf1⟩ := hrun
    subst hs1
    exact displayTime_skip s h m hc
  · rw [displayTime_repaint s h m hc] at hrun
    simp only [Option.some.injEq, Prod.mk.injEq] at hrun
    obtain ⟨hs1, hf1⟩ := hrun
    subst hs1
    exact displayTime_skip _ h m ⟨rfl, rfl⟩

/-- Witness for C9: repeating the render of 2:32 after a repaint is a
no-op returning the same state. -/
theorem compute_idempotent_witness :
    displayTime { lastHour := (carriedPair 2 32).1,
                  lastMinute := (carriedPair 2 32).2,
                  leds := frameOf 2 32 } 2 32 =
      some ({ lastHour := (carriedPair 2 32).1,
              lastMinute := (carriedPair 2 32).2,
              leds := frameOf 2 32 }, false) :=
  compute_idempotent initState 2 32 (by decide) (by decide) _ true
    (displayTime_repaint initState 2 32 (by decide))

/-- C10: for every valid input, no LED of the MINUTES word (indices
45, 44, 43, 42) is ever lit: the catalog entry exists but the rendering
algorithm never lights it. -/
theorem minutes_word_never_lit : ∀ h < 24, ∀ m < 60, ∀ i ∈ word 6,
    lit (frameOf h m) i = false := by
  intro h hh m hm i hi
  obtain ⟨h24, h56, h5⟩ := carried_range h hh m hm
  exact checkMinutesDark_spec
    (checkAll_split (checkAll_valid (rhour h m) h24 (rmin h m) h56 h5)).2.2.2.2 i hi

/-- Witness for C10 at hour 2, minute 32, LED 45. -/
theorem minutes_word_never_lit_witness : lit (frameOf 2 32) 45 = false :=
  minutes_word_never_lit 2 (by decide) 32 (by decide) 45 (by decide)

end WordClock

